import Mathlib

/-!
# Verification of `pkg/certsign` and the startup of `cmd/self-signed-server`

A shallow embedding of the certificate-chain generator.

* Go values are Lean values: `string` is `String` (an index into a string is
  an offset in bytes of its UTF-8 encoding), `[]byte` and `net.IP` are lists
  of byte values, `*big.Int` is `Option Nat`, `time.Time` is a number of
  nanoseconds (`Int`), `time.Duration` likewise.
* A Go call either returns normally with a value, returns a non-nil `error`,
  or panics; `Res` has one constructor for each.
* The standard-library operations that consume entropy or depend on the
  encoding libraries (`rand.Int`, `ecdsa.GenerateKey`,
  `x509.ParsePKCS8PrivateKey`, `x509.CreateCertificate`, `pem.Encode`,
  `x509.MarshalPKCS8PrivateKey`) are the fields of a `World`; `net.ParseIP`
  is a function parameter. Every theorem quantifies over them.
* The package-level templates are initialised once, when the package is
  loaded; the clock readings of that initialisation are an `InitClock`.
-/

namespace Certsign

/-! ## Outcomes of a Go call -/

/-- Outcome of a Go call: a normal return, a returned `error`, or a panic. -/
inductive Res (α : Type) where
  | ok (a : α)
  | err (msg : String)
  | panicked
  deriving DecidableEq, Repr

/-- Sequencing of Go statements: an error return or a panic ends the run. -/
def Res.bind {α β : Type} (r : Res α) (f : α → Res β) : Res β :=
  match r with
  | .ok a => f a
  | .err m => .err m
  | .panicked => .panicked

/-! ## Data model -/

/-- Nanoseconds; both `time.Time` (since an epoch) and `time.Duration`. -/
abbrev Time := Int

/-- Bytes of a `[]byte`. -/
abbrev Bytes := List Nat

/-- Value of `net.IP`. -/
abbrev IP := List Nat

/-- Constant `time.Hour` in nanoseconds. -/
def Hour : Time := 3600 * 1000000000

/-- Constant `x509.KeyUsageDigitalSignature` (`1 << 0`). -/
def KeyUsageDigitalSignature : Nat := 1
/-- Constant `x509.KeyUsageCertSign` (`1 << 5`). -/
def KeyUsageCertSign : Nat := 32
/-- Constant `x509.KeyUsageCRLSign` (`1 << 6`). -/
def KeyUsageCRLSign : Nat := 64

/-- Constant `x509.ExtKeyUsageServerAuth`. -/
def ExtKeyUsageServerAuth : Nat := 1
/-- Constant `x509.ExtKeyUsageClientAuth`. -/
def ExtKeyUsageClientAuth : Nat := 2

/-- Fields of `pkix.Name`. -/
structure Name where
  Country : List String := []
  Organization : List String := []
  OrganizationalUnit : List String := []
  Locality : List String := []
  Province : List String := []
  StreetAddress : List String := []
  PostalCode : List String := []
  SerialNumber : String := ""
  CommonName : String := ""
  deriving DecidableEq, Repr

/-- Fields of `x509.Certificate` that a template can set, with Go's zero
values as defaults. -/
structure Certificate where
  SerialNumber : Option Nat := none
  Subject : Name := {}
  NotBefore : Time := 0
  NotAfter : Time := 0
  KeyUsage : Nat := 0
  ExtKeyUsage : List Nat := []
  BasicConstraintsValid : Bool := false
  IsCA : Bool := false
  MaxPathLen : Int := 0
  MaxPathLenZero : Bool := false
  DNSNames : List String := []
  EmailAddresses : List String := []
  IPAddresses : List IP := []
  URIs : List String := []
  deriving DecidableEq, Repr

/-- Value of `pem.Block` (no headers are ever set by this package); `Type_`
is the Go field `Type`. -/
structure PemBlock where
  Type_ : String
  Bytes : Bytes
  deriving DecidableEq, Repr

/-- Record `Cert` of the package. -/
structure Cert where
  Certificate : Certificate := {}
  Private : Option PemBlock := none
  Public : Option PemBlock := none
  PrivateBytes : Bytes := []
  PublicBytes : Bytes := []
  deriving DecidableEq, Repr

/-- Value of `ecdsa.PrivateKey`: the embedded public key and the secret. -/
structure ECDSAPrivateKey where
  PublicKey : Nat
  D : Nat
  deriving DecidableEq, Repr

/-- Dynamic value of the `interface{}` variable `signingKey`. -/
inductive SigningKey where
  | ecdsa (k : ECDSAPrivateKey)
  | other (id : Nat)
  deriving DecidableEq, Repr

/-- Outcomes of the library calls made during one call of `genCert`, and the
clock reading at the time of that call. -/
structure World where
  /-- Reading of `time.Now().UTC()` while the operation runs; the package never takes it. -/
  now : Time
  /-- Outcome of `rand.Int(rand.Reader, 1 << 128)`. -/
  randInt : Except String Nat
  /-- Outcome of `ecdsa.GenerateKey(elliptic.P384(), rand.Reader)`. -/
  generateKey : Except String ECDSAPrivateKey
  /-- Function `x509.ParsePKCS8PrivateKey`. -/
  parsePKCS8PrivateKey : Bytes → Except String SigningKey
  /-- Call `x509.CreateCertificate(rand.Reader, template, parent, pub, priv)`. -/
  createCertificate : Certificate → Certificate → Nat → SigningKey → Except String Bytes
  /-- Function `pem.Encode` into an empty buffer: the bytes written. -/
  pemEncode : PemBlock → Except String Bytes
  /-- Function `x509.MarshalPKCS8PrivateKey`. -/
  marshalPKCS8PrivateKey : ECDSAPrivateKey → Except String Bytes

/-- Clock readings of the two `time.Now().UTC()` calls in the initialiser of
each package-level template: the first is the one written in `NotBefore`, the
second the one written in `NotAfter`. -/
structure InitClock where
  caNow1 : Time
  caNow2 : Time
  serverNow1 : Time
  serverNow2 : Time
  clientNow1 : Time
  clientNow2 : Time
  deriving DecidableEq, Repr

/-! ## Package-level templates -/

/-- Package variable `caTemplate`. -/
def caTemplate (ic : InitClock) : Certificate :=
  { IsCA := true
    NotBefore := ic.caNow1
    NotAfter := ic.caNow2 + 367 * 24 * Hour
    KeyUsage := KeyUsageDigitalSignature ||| KeyUsageCertSign ||| KeyUsageCRLSign
    BasicConstraintsValid := true }

/-- Package variable `serverTemplate`. -/
def serverTemplate (ic : InitClock) : Certificate :=
  { IsCA := false
    NotBefore := ic.serverNow1
    NotAfter := ic.serverNow2 + 367 * 24 * Hour
    KeyUsage := KeyUsageDigitalSignature
    ExtKeyUsage := [ExtKeyUsageServerAuth]
    BasicConstraintsValid := true }

/-- Package variable `clientTemplate`. -/
def clientTemplate (ic : InitClock) : Certificate :=
  { IsCA := false
    NotBefore := ic.clientNow1
    NotAfter := ic.clientNow2 + 367 * 24 * Hour
    KeyUsage := KeyUsageDigitalSignature
    ExtKeyUsage := [ExtKeyUsageClientAuth]
    BasicConstraintsValid := true }

/-! ## Serial numbers -/

/-- Little-endian base-256 digits of `n`; `fuel` bounds the recursion and
`fuel = n` always suffices. -/
def bytesLE : Nat → Nat → List Nat
  | 0, _ => []
  | fuel + 1, n => if n = 0 then [] else (n % 256) :: bytesLE fuel (n / 256)

/-- Method `(*big.Int).Bytes` on a non-negative value: the big-endian bytes
without leading zeros (empty for zero). -/
def bigBytes (n : Nat) : Bytes :=
  (bytesLE n n).reverse

/-- Digit table `"0123456789abcdef"` of `encoding/hex`. -/
def hextable : List Char :=
  ['0', '1', '2', '3', '4', '5', '6', '7', '8', '9', 'a', 'b', 'c', 'd', 'e', 'f']

/-- Function `hex.Encode`: two lower-case digits per byte. -/
def hexEncode : Bytes → List Char
  | [] => []
  | b :: bs => hextable.getD (b / 16) '0' :: hextable.getD (b % 16) '0' :: hexEncode bs

/-- Function `strings.ToUpper` on the characters of a string. -/
def toUpper (cs : List Char) : List Char :=
  cs.map Char.toUpper

/-- Slice expression `dst[len(dst)-4:]`: panics when the low bound is
negative. -/
def lastFourOf (dst : List Char) : Res (List Char) :=
  if dst.length < 4 then .panicked else .ok (dst.drop (dst.length - 4))

/-- Function `randomSerialNumber`, given the outcome of `rand.Int`. -/
def randomSerialNumber (randInt : Except String Nat) : Res (Nat × String) :=
  match randInt with
  | .error e => .err ("failed to generate serial number: " ++ e)
  | .ok serialNumber =>
    let src := bigBytes serialNumber
    let dst := hexEncode src
    (lastFourOf dst).bind fun tail =>
      let lastFour := String.mk (toUpper tail)
      .ok (serialNumber, lastFour)

/-! ## The issuer -/

/-- Block "Isolate Signing Key" of `genCert`: the certificate and the key
that are passed to `x509.CreateCertificate` as `parent` and `priv`. A parent
record without a `Private` block is a nil dereference. -/
def signingPair (w : World) (child : Certificate) (key : ECDSAPrivateKey)
    (parent : Option Cert) : Res (Certificate × SigningKey) :=
  match parent with
  | none => .ok (child, .ecdsa key)
  | some p =>
    match p.Private with
    | none => .panicked
    | some blk =>
      match w.parsePKCS8PrivateKey blk.Bytes with
      | .error e => .err e
      | .ok signingKey => .ok (p.Certificate, signingKey)

/-- Statements of `genCert` from "Flex in Serial Number to Certificate" up to
the key generation: the template after the update. -/
def flexSerial (child : Certificate) (serialNumber : Nat) (lastFour : String) : Certificate :=
  { child with
    SerialNumber := some serialNumber
    Subject := { child.Subject with
      CommonName := child.Subject.CommonName ++ " (" ++ lastFour ++ ")"
      SerialNumber := Nat.repr serialNumber } }

/-- Function `genCert`. -/
def genCert (w : World) (child : Certificate) (parent : Option Cert) : Res Cert :=
  (randomSerialNumber w.randInt).bind fun sn =>
    let child := flexSerial child sn.1 sn.2
    match w.generateKey with
    | .error e => .err e
    | .ok key =>
      (signingPair w child key parent).bind fun sp =>
        match w.createCertificate child sp.1 key.PublicKey sp.2 with
        | .error e => .err ("Failed to create certificate: " ++ e)
        | .ok derBytes =>
          let pub : PemBlock := { Type_ := "CERTIFICATE", Bytes := derBytes }
          match w.pemEncode pub with
          | .error e => .err ("failed to write data to cert.pem: " ++ e)
          | .ok publicBytes =>
            match w.marshalPKCS8PrivateKey key with
            | .error e => .err ("Unable to marshal ECDSA private key: " ++ e)
            | .ok b =>
              let priv : PemBlock := { Type_ := "PRIVATE KEY", Bytes := b }
              match w.pemEncode priv with
              | .error e => .err ("failed to encode key data: " ++ e)
              | .ok privateBytes =>
                .ok { Certificate := child
                      Private := some priv
                      Public := some pub
                      PrivateBytes := privateBytes
                      PublicBytes := publicBytes }

/-! ## The four operations -/

/-- Statement `if fields.CommonName == "" { fields.CommonName =
fields.Organization[0] }`, shared by the four operations; indexing an empty
`Organization` panics. -/
def defaultCommonName (fields : Name) : Res String :=
  if fields.CommonName = "" then
    match fields.Organization with
    | [] => .panicked
    | o :: _ => .ok o
  else .ok fields.CommonName

/-- One iteration of the loop `for _, host := range hosts`. -/
def addHost (ParseIP : String → Option IP) (c : Certificate) (host : String) : Certificate :=
  match ParseIP host with
  | some ip => { c with IPAddresses := c.IPAddresses ++ [ip] }
  | none => { c with DNSNames := c.DNSNames ++ [host] }

/-- Local variable `rootCA` of `GenerateRoot` when `genCert` is called. -/
def rootCA (ic : InitClock) (fields : Name) : Res Certificate :=
  (defaultCommonName fields).bind fun cn =>
    let cn := cn ++ " Root CA"
    .ok { caTemplate ic with Subject := { CommonName := cn, Organization := fields.Organization } }

/-- Local variable `intermediateCA` of `GenerateIntermediate` when `genCert`
is called. -/
def intermediateCA (ic : InitClock) (fields : Name) : Res Certificate :=
  (defaultCommonName fields).bind fun cn =>
    let cn := cn ++ " Intermediate CA"
    .ok { caTemplate ic with
          Subject := { CommonName := cn, Organization := fields.Organization }
          MaxPathLen := 1 }

/-- Local variable `serverCA` of `GenerateServer` when `genCert` is called. -/
def serverCA (ic : InitClock) (ParseIP : String → Option IP) (fields : Name)
    (hosts : List String) : Res Certificate :=
  (defaultCommonName fields).bind fun cn =>
    let serverCA : Certificate :=
      { caTemplate ic with Subject := { CommonName := cn, Organization := fields.Organization } }
    .ok (hosts.foldl (addHost ParseIP) serverCA)

/-- Local variable `clientCA` of `GenerateClient` when `genCert` is called. -/
def clientCA (ic : InitClock) (ParseIP : String → Option IP) (fields : Name)
    (hosts : List String) : Res Certificate :=
  (defaultCommonName fields).bind fun cn =>
    let clientCA : Certificate :=
      { caTemplate ic with Subject := { CommonName := cn, Organization := fields.Organization } }
    .ok (hosts.foldl (addHost ParseIP) clientCA)

/-- Function `GenerateRoot`. -/
def GenerateRoot (ic : InitClock) (w : World) (fields : Name) : Res Cert :=
  (rootCA ic fields).bind fun t => genCert w t none

/-- Function `GenerateIntermediate`. -/
def GenerateIntermediate (ic : InitClock) (w : World) (fields : Name) (signCA : Option Cert) :
    Res Cert :=
  (intermediateCA ic fields).bind fun t => genCert w t signCA

/-- Function `GenerateServer`. -/
def GenerateServer (ic : InitClock) (ParseIP : String → Option IP) (w : World) (fields : Name)
    (signCA : Option Cert) (hosts : List String) : Res Cert :=
  (serverCA ic ParseIP fields hosts).bind fun t => genCert w t signCA

/-- Function `GenerateClient`. -/
def GenerateClient (ic : InitClock) (ParseIP : String → Option IP) (w : World) (fields : Name)
    (signCA : Option Cert) (hosts : List String) : Res Cert :=
  (clientCA ic ParseIP fields hosts).bind fun t => genCert w t signCA

/-! ## Startup -/

/-- Length of a string in bytes (`len(s)`): the sum of the UTF-8 sizes of its
characters. -/
def utf8Len : List Char → Nat
  | [] => 0
  | x :: xs => x.utf8Size + utf8Len xs

/-- Function `strings.IndexByte` for a byte below `0x80`, given as the
character `c` it encodes: the offset in bytes of its first occurrence, `-1`
when there is none. (In UTF-8 such a byte occurs only as that character.) -/
def IndexByte : List Char → Char → Int
  | [], _ => -1
  | x :: xs, c =>
    if x = c then 0
    else
      let i := IndexByte xs c
      if i < 0 then -1 else i + x.utf8Size

/-- Characters of `s` that lie wholly within its first `n` bytes. When byte
`n` is a character boundary, as every offset returned by `IndexByte` is, these
are exactly the first `n` bytes of `s`. -/
def takeBytes : List Char → Nat → List Char
  | [], _ => []
  | x :: xs, n => if x.utf8Size ≤ n then x :: takeBytes xs (n - x.utf8Size) else []

/-- Slice expression `s[:i]` with `i` in bytes: panics unless
`0 ≤ i ≤ len(s)`. -/
def sliceTo (s : List Char) (i : Int) : Res (List Char) :=
  if i < 0 ∨ (utf8Len s : Int) < i then .panicked else .ok (takeBytes s i.toNat)

/-- Expression `fmt.Sprintf("%s.local", hostname[:strings.IndexByte(hostname, '.')])`
of `main`. -/
def companionName (hostname : String) : Res String :=
  (sliceTo hostname.data (IndexByte hostname.data '.')).bind fun short =>
    .ok (String.mk short ++ ".local")

/-- A call of the package made by `main`, with its arguments. -/
inductive Call where
  | generateRoot (fields : Name)
  | generateIntermediate (fields : Name) (signCA : Option Cert)
  | generateServer (fields : Name) (signCA : Option Cert) (hosts : List String)
  deriving DecidableEq, Repr

/-- Execution of a call of the package in the world `w`. -/
def Call.run (ic : InitClock) (ParseIP : String → Option IP) (w : World) : Call → Res Cert
  | .generateRoot fields => GenerateRoot ic w fields
  | .generateIntermediate fields signCA => GenerateIntermediate ic w fields signCA
  | .generateServer fields signCA hosts => GenerateServer ic ParseIP w fields signCA hosts

/-- Chain held by `main` once the three records exist. -/
structure Chain where
  rootCA : Cert
  svrCA : Cert
  server : Cert
  deriving DecidableEq, Repr

/-- Local variable `values` of `main`. -/
def values : Name := { Organization := ["ACME Company"] }

/-- Function `main` up to the creation of the server record: the calls it
made, each with the arguments it was run with, and the outcome (`log.Fatal`
is the error outcome). `hostname` is the string returned by `os.Hostname`,
and one `World` serves each call. -/
def main (ic : InitClock) (ParseIP : String → Option IP) (hostname : String)
    (w1 w2 w3 : World) : List Call × Res Chain :=
  let call1 := Call.generateRoot values
  match call1.run ic ParseIP w1 with
  | .err m => ([call1], .err m)
  | .panicked => ([call1], .panicked)
  | .ok rootCA =>
    let call2 := Call.generateIntermediate values (some rootCA)
    match call2.run ic ParseIP w2 with
    | .err m => ([call1, call2], .err m)
    | .panicked => ([call1, call2], .panicked)
    | .ok svrCA =>
      match companionName hostname with
      | .err m => ([call1, call2], .err m)
      | .panicked => ([call1, call2], .panicked)
      | .ok name =>
        let call3 := Call.generateServer values (some svrCA) [name, hostname]
        ([call1, call2, call3],
          (call3.run ic ParseIP w3).bind fun server =>
            .ok { rootCA := rootCA, svrCA := svrCA, server := server })

/-! ## A concrete world, used to exhibit runs -/

/-- Dotted-decimal field of an IPv4 literal: one to three digits, value at
most 255, no leading zero. -/
def parseOctet (cs : List Char) : Option Nat :=
  if cs = [] ∨ 3 < cs.length ∨ ¬ cs.all Char.isDigit ∨ (1 < cs.length ∧ cs.head? = some '0') then
    none
  else
    let v := cs.foldl (fun acc c => 10 * acc + (c.toNat - 48)) 0
    if v ≤ 255 then some v else none

/-- Dotted-decimal fragment of `net.ParseIP`: four fields give the 16-byte
IPv4-in-IPv6 form that Go returns, anything else is not an address here. -/
def parseIPv4 (s : String) : Option IP :=
  match (s.data.splitOn '.').map parseOctet with
  | [some a, some b, some c, some d] =>
    some [0, 0, 0, 0, 0, 0, 0, 0, 0, 0, 255, 255, a, b, c, d]
  | _ => none

/-- World in which every library call succeeds: the serial is `serial`, the
fresh key is `key`, and the encoders record their arguments. -/
def sampleWorld (serial : Nat) (key : ECDSAPrivateKey) : World :=
  { now := 2000
    randInt := .ok serial
    generateKey := .ok key
    parsePKCS8PrivateKey := fun b =>
      match b with
      | [p, d] => .ok (.ecdsa { PublicKey := p, D := d })
      | _ => .error "x509: failed to parse private key"
    createCertificate := fun t p pub _ =>
      .ok [pub, t.SerialNumber.getD 0, p.SerialNumber.getD 0]
    pemEncode := fun blk => .ok (blk.Type_.length :: blk.Bytes)
    marshalPKCS8PrivateKey := fun k => .ok [k.PublicKey, k.D] }

/-- Fresh key used in the examples. -/
def sampleKey : ECDSAPrivateKey := { PublicKey := 11, D := 12 }

/-- Signing record used in the examples: a CA descriptor with the PKCS#8
block of the key `(7, 8)`. -/
def sampleParent : Cert :=
  { Certificate :=
      { IsCA := true, BasicConstraintsValid := true, KeyUsage := 97, SerialNumber := some 4660 }
    Private := some { Type_ := "PRIVATE KEY", Bytes := [7, 8] }
    Public := some { Type_ := "CERTIFICATE", Bytes := [7, 4660, 4660] }
    PrivateBytes := [11, 7, 8]
    PublicBytes := [11, 7, 4660, 4660] }

/-- Clock readings at package initialisation used in the examples. -/
def sampleClock : InitClock :=
  { caNow1 := 1000, caNow2 := 1001
    serverNow1 := 1002, serverNow2 := 1003
    clientNow1 := 1004, clientNow2 := 1005 }

/-! ## Predicates used in the statements -/

/-- Policy of a certificate-authority descriptor: CA flag and basic
constraints set, key usage digitalSignature, certSign and crlSign, no extended
key usage and no subject alternative name. -/
def CAPolicy (c : Certificate) : Prop :=
  c.IsCA = true ∧ c.BasicConstraintsValid = true ∧
    c.KeyUsage = (KeyUsageDigitalSignature ||| KeyUsageCertSign ||| KeyUsageCRLSign) ∧
    c.ExtKeyUsage = [] ∧
    c.DNSNames = [] ∧ c.EmailAddresses = [] ∧ c.IPAddresses = [] ∧ c.URIs = []

/-- Characters `0`-`9` and `A`-`F`. -/
def upperHexDigits : List Char :=
  ['0', '1', '2', '3', '4', '5', '6', '7', '8', '9', 'A', 'B', 'C', 'D', 'E', 'F']

/-- A record as `genCert` completes it in world `w`: both PEM blocks are
present with their types, and each byte buffer is the PEM encoding of its
block. -/
def Complete (w : World) (c : Cert) : Prop :=
  ∃ der keyDer,
    c.Public = some { Type_ := "CERTIFICATE", Bytes := der } ∧
    c.Private = some { Type_ := "PRIVATE KEY", Bytes := keyDer } ∧
    w.pemEncode { Type_ := "CERTIFICATE", Bytes := der } = .ok c.PublicBytes ∧
    w.pemEncode { Type_ := "PRIVATE KEY", Bytes := keyDer } = .ok c.PrivateBytes

end Certsign

namespace Certsign

/-! ## Lemmas on the serial number -/

theorem hexEncode_length (bs : Bytes) : (hexEncode bs).length = 2 * bs.length := by
  induction bs with
  | nil => rfl
  | cons b bs ih => simp [hexEncode, ih]; omega

theorem bytesLE_small (fuel n : Nat) (h : n < 256) : (bytesLE fuel n).length ≤ 1 := by
  cases fuel with
  | zero => simp [bytesLE]
  | succ f =>
    by_cases h0 : n = 0
    · simp [bytesLE, h0]
    · have hq : n / 256 = 0 := Nat.div_eq_of_lt h
      cases f with
      | zero => simp [bytesLE, h0]
      | succ g => simp [bytesLE, h0, hq]

theorem bytesLE_large (fuel n : Nat) (hf : n ≤ fuel) (h : 256 ≤ n) :
    2 ≤ (bytesLE fuel n).length := by
  obtain ⟨f, rfl⟩ : ∃ f, fuel = f + 2 := ⟨fuel - 2, by omega⟩
  have h0 : n ≠ 0 := by omega
  have hq : n / 256 ≠ 0 := by
    have : 1 ≤ n / 256 := (Nat.one_le_div_iff (by norm_num)).2 h
    omega
  simp [bytesLE, h0, hq]

theorem bytesLE_lt (fuel n : Nat) : ∀ b ∈ bytesLE fuel n, b < 256 := by
  induction fuel generalizing n with
  | zero => simp [bytesLE]
  | succ f ih =>
    intro b hb
    by_cases h0 : n = 0
    · simp [bytesLE, h0] at hb
    · simp only [bytesLE, h0, if_false, List.mem_cons] at hb
      rcases hb with rfl | hb
      · exact Nat.mod_lt _ (by norm_num)
      · exact ih _ b hb

theorem hexEncode_mem (bs : Bytes) (h : ∀ b ∈ bs, b < 256) :
    ∀ c ∈ hexEncode bs, c ∈ hextable := by
  induction bs with
  | nil => simp [hexEncode]
  | cons b bs ih =>
    intro c hc
    have hb : b < 256 := h b (List.mem_cons_self _ _)
    simp only [hexEncode, List.mem_cons] at hc
    have key : ∀ i, i < 16 → hextable.getD i '0' ∈ hextable := by
      intro i hi
      interval_cases i <;> decide
    rcases hc with rfl | rfl | hc
    · exact key _ (by omega)
    · exact key _ (Nat.mod_lt _ (by norm_num))
    · exact ih (fun x hx => h x (List.mem_cons_of_mem _ hx)) c hc

theorem toUpper_hextable (c : Char) (h : c ∈ hextable) : c.toUpper ∈ upperHexDigits := by
  simp only [hextable, List.mem_cons, List.mem_singleton, List.not_mem_nil, or_false] at h
  rcases h with rfl | rfl | rfl | rfl | rfl | rfl | rfl | rfl | rfl | rfl | rfl | rfl | rfl |
    rfl | rfl | rfl <;> decide

theorem randomSerialNumber_small (n : Nat) (h : n < 256) :
    randomSerialNumber (.ok n) = .panicked := by
  have h1 : (hexEncode (bigBytes n)).length < 4 := by
    rw [hexEncode_length, bigBytes, List.length_reverse]
    have := bytesLE_small n n h
    omega
  simp [randomSerialNumber, lastFourOf, h1, Res.bind]

theorem randomSerialNumber_large (n : Nat) (h : 256 ≤ n) :
    ∃ f : String, randomSerialNumber (.ok n) = .ok (n, f) ∧ f.length = 4 ∧
      ∀ c ∈ f.data, c ∈ upperHexDigits := by
  have h1 : 4 ≤ (hexEncode (bigBytes n)).length := by
    rw [hexEncode_length, bigBytes, List.length_reverse]
    have := bytesLE_large n n (le_refl n) h
    omega
  refine ⟨String.mk (toUpper ((hexEncode (bigBytes n)).drop
    ((hexEncode (bigBytes n)).length - 4))), ?_, ?_, ?_⟩
  · simp [randomSerialNumber, lastFourOf, Nat.not_lt.2 h1, Res.bind]
  · simp only [String.length, toUpper, List.length_map, List.length_drop]
    omega
  · intro c hc
    simp only [toUpper, List.mem_map] at hc
    obtain ⟨d, hd, rfl⟩ := hc
    apply toUpper_hextable
    apply hexEncode_mem (bigBytes n) _ d (List.mem_of_mem_drop hd)
    intro b hb
    rw [bigBytes, List.mem_reverse] at hb
    exact bytesLE_lt n n b hb

theorem randomSerialNumber_ok_inv {r : Except String Nat} {s : Nat} {f : String}
    (h : randomSerialNumber r = .ok (s, f)) : r = .ok s := by
  cases r with
  | error e => simp [randomSerialNumber] at h
  | ok n =>
    simp only [randomSerialNumber, lastFourOf] at h
    split at h
    · simp [Res.bind] at h
    · simp only [Res.bind, Res.ok.injEq, Prod.mk.injEq] at h
      rw [h.1]

/-! ## Lemmas on the issuer -/

theorem genCert_ok_inv {w : World} {child : Certificate} {parent : Option Cert} {c : Cert}
    (h : genCert w child parent = .ok c) :
    ∃ s f key sp der pubBytes b privBytes,
      randomSerialNumber w.randInt = .ok (s, f) ∧
      w.generateKey = .ok key ∧
      signingPair w (flexSerial child s f) key parent = .ok sp ∧
      w.createCertificate (flexSerial child s f) sp.1 key.PublicKey sp.2 = .ok der ∧
      w.pemEncode { Type_ := "CERTIFICATE", Bytes := der } = .ok pubBytes ∧
      w.marshalPKCS8PrivateKey key = .ok b ∧
      w.pemEncode { Type_ := "PRIVATE KEY", Bytes := b } = .ok privBytes ∧
      c = { Certificate := flexSerial child s f
            Private := some { Type_ := "PRIVATE KEY", Bytes := b }
            Public := some { Type_ := "CERTIFICATE", Bytes := der }
            PrivateBytes := privBytes
            PublicBytes := pubBytes } := by
  unfold genCert at h
  cases hs : randomSerialNumber w.randInt with
  | err m => simp [hs, Res.bind] at h
  | panicked => simp [hs, Res.bind] at h
  | ok sn =>
    obtain ⟨s, f⟩ := sn
    simp only [hs, Res.bind] at h
    cases hk : w.generateKey with
    | error e => simp [hk] at h
    | ok key =>
      simp only [hk] at h
      cases hp : signingPair w (flexSerial child s f) key parent with
      | err m => simp [hp] at h
      | panicked => simp [hp] at h
      | ok sp =>
        simp only [hp] at h
        cases hc : w.createCertificate (flexSerial child s f) sp.1 key.PublicKey sp.2 with
        | error e => simp [hc] at h
        | ok der =>
          simp only [hc] at h
          cases he : w.pemEncode { Type_ := "CERTIFICATE", Bytes := der } with
          | error e => simp [he] at h
          | ok pubBytes =>
            simp only [he] at h
            cases hm : w.marshalPKCS8PrivateKey key with
            | error e => simp [hm] at h
            | ok b =>
              simp only [hm] at h
              cases hq : w.pemEncode { Type_ := "PRIVATE KEY", Bytes := b } with
              | error e => simp [hq] at h
              | ok privBytes =>
                simp only [hq, Res.ok.injEq] at h
                exact ⟨s, f, key, sp, der, pubBytes, b, privBytes, rfl, rfl, hp, hc, he, hm,
                  hq, h.symm⟩

theorem genCert_ok_descriptor {w : World} {child : Certificate} {parent : Option Cert}
    {c : Cert} (h : genCert w child parent = .ok c) :
    ∃ s f, randomSerialNumber w.randInt = .ok (s, f) ∧ c.Certificate = flexSerial child s f := by
  obtain ⟨s, f, _, _, _, _, _, _, hs, _, _, _, _, _, _, rfl⟩ := genCert_ok_inv h
  exact ⟨s, f, hs, rfl⟩

theorem signingPair_ok_inv {w : World} {child : Certificate} {key : ECDSAPrivateKey}
    {parent : Option Cert} {sp : Certificate × SigningKey}
    (h : signingPair w child key parent = .ok sp) :
    (parent = none ∧ sp = (child, .ecdsa key)) ∨
    (∃ p blk sk, parent = some p ∧ p.Private = some blk ∧
      w.parsePKCS8PrivateKey blk.Bytes = .ok sk ∧ sp = (p.Certificate, sk)) := by
  unfold signingPair at h
  cases parent with
  | none =>
    simp only [Res.ok.injEq] at h
    exact Or.inl ⟨rfl, h.symm⟩
  | some p =>
    right
    simp only at h
    cases hb : p.Private with
    | none => simp [hb] at h
    | some blk =>
      simp only [hb] at h
      cases hk : w.parsePKCS8PrivateKey blk.Bytes with
      | error e => simp [hk] at h
      | ok sk =>
        simp only [hk, Res.ok.injEq] at h
        exact ⟨p, blk, sk, rfl, hb, hk, h.symm⟩

/-! ## Lemmas on the templates -/

theorem defaultCommonName_ok (fields : Name) (h : fields.Organization ≠ []) :
    defaultCommonName fields =
      .ok (if fields.CommonName = "" then fields.Organization.head h else fields.CommonName) := by
  obtain ⟨c, org, ou, l, pr, st, pc, sn, cn⟩ := fields
  cases org with
  | nil => exact absurd rfl h
  | cons o os =>
    unfold defaultCommonName
    split <;> rfl

theorem foldl_addHost (ParseIP : String → Option IP) (hosts : List String) (c : Certificate) :
    hosts.foldl (addHost ParseIP) c =
      { c with
        IPAddresses := c.IPAddresses ++ hosts.filterMap ParseIP
        DNSNames := c.DNSNames ++ hosts.filter fun h => (ParseIP h).isNone } := by
  induction hosts generalizing c with
  | nil => simp
  | cons h hs ih =>
    rw [List.foldl_cons, ih]
    unfold addHost
    cases hp : ParseIP h with
    | none => simp [hp, List.filterMap_cons, List.filter_cons]
    | some ip => simp [hp, List.filterMap_cons, List.filter_cons]

theorem signingPair_total (w : World) (child : Certificate) (key : ECDSAPrivateKey)
    (parent : Option Cert) (hparent : ∀ p, parent = some p → p.Private ≠ none) :
    (∃ sp, signingPair w child key parent = .ok sp) ∨
      (∃ m, signingPair w child key parent = .err m) := by
  unfold signingPair
  cases parent with
  | none => exact Or.inl ⟨_, rfl⟩
  | some p =>
    cases hb : p.Private with
    | none => exact absurd hb (hparent p rfl)
    | some blk =>
      cases hk : w.parsePKCS8PrivateKey blk.Bytes with
      | error e => exact Or.inr ⟨e, by simp [hb, hk]⟩
      | ok sk => exact Or.inl ⟨(p.Certificate, sk), by simp [hb, hk]⟩

theorem genCert_total (w : World) (child : Certificate) (parent : Option Cert)
    (hserial : ∀ n, w.randInt = .ok n → 256 ≤ n)
    (hparent : ∀ p, parent = some p → p.Private ≠ none) :
    (∃ c, genCert w child parent = .ok c ∧ Complete w c) ∨
      (∃ m, genCert w child parent = .err m) := by
  unfold genCert
  cases hr : w.randInt with
  | error e => exact Or.inr ⟨"failed to generate serial number: " ++ e, rfl⟩
  | ok n =>
    obtain ⟨f, hf, -, -⟩ := randomSerialNumber_large n (hserial n hr)
    simp only [hf, Res.bind]
    cases hk : w.generateKey with
    | error e => exact Or.inr ⟨e, rfl⟩
    | ok key =>
      simp only []
      rcases signingPair_total w (flexSerial child n f) key parent hparent with ⟨sp, hsp⟩ | ⟨m, hsp⟩
      · simp only [hsp]
        cases hc : w.createCertificate (flexSerial child n f) sp.1 key.PublicKey sp.2 with
        | error e => exact Or.inr ⟨_, rfl⟩
        | ok der =>
          simp only []
          cases he : w.pemEncode { Type_ := "CERTIFICATE", Bytes := der } with
          | error e => exact Or.inr ⟨_, rfl⟩
          | ok pubBytes =>
            simp only []
            cases hm : w.marshalPKCS8PrivateKey key with
            | error e => exact Or.inr ⟨_, rfl⟩
            | ok b =>
              simp only []
              cases hq : w.pemEncode { Type_ := "PRIVATE KEY", Bytes := b } with
              | error e => exact Or.inr ⟨_, rfl⟩
              | ok privBytes => exact Or.inl ⟨_, rfl, der, b, rfl, rfl, he, hq⟩
      · simp only [hsp]
        exact Or.inr ⟨m, rfl⟩

theorem Res.bind_ok_inv {α β : Type} {r : Res α} {f : α → Res β} {b : β}
    (h : r.bind f = .ok b) : ∃ a, r = .ok a ∧ f a = .ok b := by
  cases r with
  | ok a => exact ⟨a, rfl, h⟩
  | err m => simp [Res.bind] at h
  | panicked => simp [Res.bind] at h

theorem rootCA_ok_inv {ic : InitClock} {fields : Name} {t : Certificate}
    (h : rootCA ic fields = .ok t) :
    ∃ cn, defaultCommonName fields = .ok cn ∧
      t = { caTemplate ic with
            Subject := { CommonName := cn ++ " Root CA", Organization := fields.Organization } } := by
  obtain ⟨cn, hcn, ht⟩ := Res.bind_ok_inv h
  simp only [Res.ok.injEq] at ht
  exact ⟨cn, hcn, ht.symm⟩

theorem intermediateCA_ok_inv {ic : InitClock} {fields : Name} {t : Certificate}
    (h : intermediateCA ic fields = .ok t) :
    ∃ cn, defaultCommonName fields = .ok cn ∧
      t = { caTemplate ic with
            Subject := { CommonName := cn ++ " Intermediate CA"
                         Organization := fields.Organization }
            MaxPathLen := 1 } := by
  obtain ⟨cn, hcn, ht⟩ := Res.bind_ok_inv h
  simp only [Res.ok.injEq] at ht
  exact ⟨cn, hcn, ht.symm⟩

theorem serverCA_ok_inv {ic : InitClock} {ParseIP : String → Option IP} {fields : Name}
    {hosts : List String} {t : Certificate} (h : serverCA ic ParseIP fields hosts = .ok t) :
    ∃ cn, defaultCommonName fields = .ok cn ∧
      t = { caTemplate ic with
            Subject := { CommonName := cn, Organization := fields.Organization }
            IPAddresses := hosts.filterMap ParseIP
            DNSNames := hosts.filter fun h => (ParseIP h).isNone } := by
  obtain ⟨cn, hcn, ht⟩ := Res.bind_ok_inv h
  simp only [Res.ok.injEq, foldl_addHost] at ht
  refine ⟨cn, hcn, ?_⟩
  rw [← ht]
  simp [caTemplate]

theorem clientCA_ok_inv {ic : InitClock} {ParseIP : String → Option IP} {fields : Name}
    {hosts : List String} {t : Certificate} (h : clientCA ic ParseIP fields hosts = .ok t) :
    ∃ cn, defaultCommonName fields = .ok cn ∧
      t = { caTemplate ic with
            Subject := { CommonName := cn, Organization := fields.Organization }
            IPAddresses := hosts.filterMap ParseIP
            DNSNames := hosts.filter fun h => (ParseIP h).isNone } := by
  obtain ⟨cn, hcn, ht⟩ := Res.bind_ok_inv h
  simp only [Res.ok.injEq, foldl_addHost] at ht
  refine ⟨cn, hcn, ?_⟩
  rw [← ht]
  simp [caTemplate]

theorem template_exists {fields : Name} (h : fields.Organization ≠ [])
    (f : String → Res Certificate) (hf : ∀ cn, ∃ t, f cn = .ok t) :
    ∃ t, (defaultCommonName fields).bind f = .ok t := by
  rw [defaultCommonName_ok fields h]
  exact hf _

theorem filterMap_filter_length (ParseIP : String → Option IP) (hosts : List String) :
    (hosts.filterMap ParseIP).length + (hosts.filter fun h => (ParseIP h).isNone).length =
      hosts.length := by
  induction hosts with
  | nil => rfl
  | cons h hs ih =>
    cases hp : ParseIP h with
    | none => simp [List.filterMap_cons, List.filter_cons, hp]; omega
    | some ip => simp [List.filterMap_cons, List.filter_cons, hp]; omega

/-! ## Lemmas on the startup -/

theorem IndexByte_of_not_mem (s : List Char) (c : Char) (h : c ∉ s) : IndexByte s c = -1 := by
  induction s with
  | nil => rfl
  | cons x xs ih =>
    have hx : x ≠ c := fun e => h (e ▸ List.mem_cons_self _ _)
    have hxs : c ∉ xs := fun m => h (List.mem_cons_of_mem _ m)
    simp [IndexByte, hx, ih hxs]

theorem IndexByte_of_mem (s : List Char) (c : Char) (h : c ∈ s) :
    ∃ pre post, s = pre ++ c :: post ∧ c ∉ pre ∧ IndexByte s c = (utf8Len pre : Int) := by
  induction s with
  | nil => cases h
  | cons x xs ih =>
    by_cases hx : x = c
    · exact ⟨[], xs, by simp [hx], by simp, by simp [IndexByte, hx, utf8Len]⟩
    · have hxs : c ∈ xs := by
        rcases List.mem_cons.1 h with e | m
        · exact absurd e.symm hx
        · exact m
      obtain ⟨pre, post, hs, hn, hi⟩ := ih hxs
      refine ⟨x :: pre, post, by simp [hs], ?_, ?_⟩
      · intro m
        rcases List.mem_cons.1 m with e | m
        · exact hx e.symm
        · exact hn m
      · have hneg : ¬ ((utf8Len pre : Int) < 0) := by omega
        simp only [IndexByte, hx, if_false, hi, hneg, utf8Len, Nat.cast_add]
        omega

theorem utf8Len_append (xs ys : List Char) : utf8Len (xs ++ ys) = utf8Len xs + utf8Len ys := by
  induction xs with
  | nil => simp [utf8Len]
  | cons x xs ih => simp [utf8Len, ih]; omega

theorem takeBytes_prefix (pre post : List Char) (c : Char) :
    takeBytes (pre ++ c :: post) (utf8Len pre) = pre := by
  induction pre with
  | nil =>
    have := Char.utf8Size_pos c
    simp only [List.nil_append, utf8Len, takeBytes]
    rw [if_neg (by omega)]
  | cons x xs ih =>
    simp only [List.cons_append, utf8Len, takeBytes]
    rw [if_pos (by omega), Nat.add_sub_cancel_left]
    exact congrArg (x :: ·) ih

theorem companionName_of_mem (hostname : String) (h : '.' ∈ hostname.data) :
    ∃ pre post, hostname.data = pre ++ '.' :: post ∧ '.' ∉ pre ∧
      IndexByte hostname.data '.' = (utf8Len pre : Int) ∧
      companionName hostname = .ok (String.mk pre ++ ".local") := by
  obtain ⟨pre, post, hs, hn, hi⟩ := IndexByte_of_mem hostname.data '.' h
  refine ⟨pre, post, hs, hn, hi, ?_⟩
  have h1 : ¬ ((utf8Len pre : Int) < 0 ∨ (utf8Len hostname.data : Int) < (utf8Len pre : Int)) := by
    rw [hs, utf8Len_append]
    omega
  unfold companionName sliceTo
  rw [hi, if_neg h1]
  simp only [Res.bind, Int.toNat_ofNat]
  rw [hs, takeBytes_prefix]

theorem companionName_of_not_mem (hostname : String) (h : '.' ∉ hostname.data) :
    companionName hostname = .panicked := by
  unfold companionName sliceTo
  rw [IndexByte_of_not_mem _ _ h]
  simp [Res.bind]

theorem defaultCommonName_total (fields : Name)
    (hname : fields.CommonName ≠ "" ∨ fields.Organization ≠ []) :
    ∃ cn, defaultCommonName fields = .ok cn := by
  unfold defaultCommonName
  split
  · rename_i he
    rcases hname with h | h
    · exact absurd he h
    · cases hO : fields.Organization with
      | nil => exact absurd hO h
      | cons o os => exact ⟨o, rfl⟩
  · exact ⟨_, rfl⟩

theorem genCert_ok_complete {w : World} {child : Certificate} {parent : Option Cert} {c : Cert}
    (h : genCert w child parent = .ok c) : Complete w c := by
  obtain ⟨s, f, key, sp, der, pubBytes, b, privBytes, -, -, -, -, he, -, hq, rfl⟩ :=
    genCert_ok_inv h
  exact ⟨der, b, rfl, rfl, he, hq⟩

/-! ## Claims -/

/-- C4: the fingerprint computation does not succeed for every serial in
`[0, 2^128)`. A serial below 256 has at most one byte, so its hex encoding has
fewer than four characters and the slice `dst[len(dst)-4:]` panics; for every
serial from 256 on the function returns the serial and a fingerprint of
exactly four characters, each in `0`-`9` or `A`-`F`. -/
theorem C4_fingerprint_panics_below_256 (n : Nat) :
    (n < 256 → randomSerialNumber (.ok n) = .panicked) ∧
    (256 ≤ n → ∃ f : String, randomSerialNumber (.ok n) = .ok (n, f) ∧ f.length = 4 ∧
      ∀ c ∈ f.data, c ∈ upperHexDigits) :=
  ⟨randomSerialNumber_small n, randomSerialNumber_large n⟩

theorem C4_fingerprint_panics_below_256_witness :
    ((0 : Nat) < 256 ∧ randomSerialNumber (.ok 0) = .panicked) ∧
    ((256 : Nat) ≤ 4660 ∧ ∃ f : String, randomSerialNumber (.ok 4660) = .ok (4660, f) ∧
      f.length = 4 ∧ ∀ c ∈ f.data, c ∈ upperHexDigits) :=
  ⟨⟨by decide, (C4_fingerprint_panics_below_256 0).1 (by decide)⟩,
    ⟨by decide, (C4_fingerprint_panics_below_256 4660).2 (by decide)⟩⟩

/-- C5: when `genCert` succeeds, the serial `s` it drew and the fingerprint
`f` computed from `s` by `randomSerialNumber` are the ones in the returned
descriptor: `SerialNumber` is `s`, the subject serial-number attribute is the
decimal string of `s`, and the subject common name is the template's common
name followed by `" (" ++ f ++ ")"`. -/
theorem C5_serial_and_fingerprint_in_descriptor (w : World) (child : Certificate)
    (parent : Option Cert) (c : Cert) (h : genCert w child parent = .ok c) :
    ∃ s f, w.randInt = .ok s ∧ randomSerialNumber (.ok s) = .ok (s, f) ∧
      c.Certificate.SerialNumber = some s ∧
      c.Certificate.Subject.SerialNumber = Nat.repr s ∧
      c.Certificate.Subject.CommonName = child.Subject.CommonName ++ " (" ++ f ++ ")" := by
  obtain ⟨s, f, hs, hc⟩ := genCert_ok_descriptor h
  have hr := randomSerialNumber_ok_inv hs
  refine ⟨s, f, hr, ?_, ?_, ?_, ?_⟩
  · rw [← hr]; exact hs
  · rw [hc]; rfl
  · rw [hc]; rfl
  · rw [hc]; rfl

theorem C5_serial_and_fingerprint_in_descriptor_witness :
    ∃ c, genCert (sampleWorld 11259375 sampleKey) (caTemplate sampleClock) none = .ok c ∧
      ∃ s f, (sampleWorld 11259375 sampleKey).randInt = .ok s ∧
        randomSerialNumber (.ok s) = .ok (s, f) ∧
        c.Certificate.SerialNumber = some s ∧
        c.Certificate.Subject.SerialNumber = Nat.repr s ∧
        c.Certificate.Subject.CommonName =
          (caTemplate sampleClock).Subject.CommonName ++ " (" ++ f ++ ")" :=
  ⟨_, rfl, C5_serial_and_fingerprint_in_descriptor (sampleWorld 11259375 sampleKey)
    (caTemplate sampleClock) none _ rfl⟩

/-- C9: when `genCert` succeeds, `x509.CreateCertificate` was given the
updated child template, the public half of the freshly generated key, and as
signing pair: without a parent, the updated child template itself and the
fresh key; with a parent, the parent record's certificate and the key decoded
from the parent's stored `PRIVATE KEY` block. The record's `PRIVATE KEY` block
holds the marshalled fresh key. -/
theorem C9_signing_key_and_certificate (w : World) (child : Certificate)
    (parent : Option Cert) (c : Cert) (h : genCert w child parent = .ok c) :
    ∃ s f key der keyDer,
      randomSerialNumber w.randInt = .ok (s, f) ∧ w.generateKey = .ok key ∧
      c.Certificate = flexSerial child s f ∧
      c.Public = some { Type_ := "CERTIFICATE", Bytes := der } ∧
      c.Private = some { Type_ := "PRIVATE KEY", Bytes := keyDer } ∧
      w.marshalPKCS8PrivateKey key = .ok keyDer ∧
      (parent = none →
        signingPair w (flexSerial child s f) key parent =
          .ok (flexSerial child s f, .ecdsa key) ∧
        w.createCertificate (flexSerial child s f) (flexSerial child s f) key.PublicKey
          (.ecdsa key) = .ok der) ∧
      (∀ p, parent = some p → ∃ blk sk,
        p.Private = some blk ∧ w.parsePKCS8PrivateKey blk.Bytes = .ok sk ∧
        signingPair w (flexSerial child s f) key parent = .ok (p.Certificate, sk) ∧
        w.createCertificate (flexSerial child s f) p.Certificate key.PublicKey sk = .ok der) := by
  obtain ⟨s, f, key, sp, der, pubBytes, b, privBytes, hs, hk, hsp, hc, -, hm, -, rfl⟩ :=
    genCert_ok_inv h
  refine ⟨s, f, key, der, b, hs, hk, rfl, rfl, rfl, hm, ?_, ?_⟩
  · intro hn
    rcases signingPair_ok_inv hsp with ⟨-, rfl⟩ | ⟨p, _, _, hp, -⟩
    · exact ⟨hsp, hc⟩
    · rw [hn] at hp; cases hp
  · intro p hp
    rcases signingPair_ok_inv hsp with ⟨hn, -⟩ | ⟨q, blk, sk, hq, hb, hparse, rfl⟩
    · rw [hp] at hn; cases hn
    · rw [hp] at hq
      cases hq
      exact ⟨blk, sk, hb, hparse, hsp, hc⟩

theorem C9_signing_key_and_certificate_witness :
    ∃ c, genCert (sampleWorld 11259375 sampleKey) (caTemplate sampleClock) (some sampleParent)
        = .ok c ∧
      ∃ s f key der keyDer,
        randomSerialNumber (sampleWorld 11259375 sampleKey).randInt = .ok (s, f) ∧
        (sampleWorld 11259375 sampleKey).generateKey = .ok key ∧
        c.Certificate = flexSerial (caTemplate sampleClock) s f ∧
        c.Public = some { Type_ := "CERTIFICATE", Bytes := der } ∧
        c.Private = some { Type_ := "PRIVATE KEY", Bytes := keyDer } ∧
        (sampleWorld 11259375 sampleKey).marshalPKCS8PrivateKey key = .ok keyDer ∧
        (some sampleParent = none →
          signingPair (sampleWorld 11259375 sampleKey) (flexSerial (caTemplate sampleClock) s f)
            key (some sampleParent) = .ok (flexSerial (caTemplate sampleClock) s f, .ecdsa key) ∧
          (sampleWorld 11259375 sampleKey).createCertificate
            (flexSerial (caTemplate sampleClock) s f) (flexSerial (caTemplate sampleClock) s f)
            key.PublicKey (.ecdsa key) = .ok der) ∧
        (∀ p, some sampleParent = some p → ∃ blk sk,
          p.Private = some blk ∧
          (sampleWorld 11259375 sampleKey).parsePKCS8PrivateKey blk.Bytes = .ok sk ∧
          signingPair (sampleWorld 11259375 sampleKey) (flexSerial (caTemplate sampleClock) s f)
            key (some sampleParent) = .ok (p.Certificate, sk) ∧
          (sampleWorld 11259375 sampleKey).createCertificate
            (flexSerial (caTemplate sampleClock) s f) p.Certificate key.PublicKey sk = .ok der) :=
  ⟨_, rfl, C9_signing_key_and_certificate (sampleWorld 11259375 sampleKey)
    (caTemplate sampleClock) (some sampleParent) _ rfl⟩

/-- C8 (as stated, refuted): `genCert` and the operations do not always
return. With the serial 255 drawn `genCert` panics in the fingerprint slice,
with a parent record that has no `PRIVATE KEY` block it panics on the nil
block, and `GenerateRoot` on a subject with neither common name nor
organization panics on `Organization[0]`; in each run neither a record nor an
error is returned. -/
theorem C8_genCert_may_not_return :
    ¬ ((∃ c, genCert (sampleWorld 255 sampleKey) (caTemplate sampleClock) none = .ok c ∧
          Complete (sampleWorld 255 sampleKey) c) ∨
        (∃ m, genCert (sampleWorld 255 sampleKey) (caTemplate sampleClock) none = .err m)) ∧
    ¬ ((∃ c, genCert (sampleWorld 11259375 sampleKey) (caTemplate sampleClock)
            (some { sampleParent with Private := none }) = .ok c ∧
          Complete (sampleWorld 11259375 sampleKey) c) ∨
        (∃ m, genCert (sampleWorld 11259375 sampleKey) (caTemplate sampleClock)
            (some { sampleParent with Private := none }) = .err m)) ∧
    ¬ ((∃ c, GenerateRoot sampleClock (sampleWorld 11259375 sampleKey) {} = .ok c ∧
          Complete (sampleWorld 11259375 sampleKey) c) ∨
        (∃ m, GenerateRoot sampleClock (sampleWorld 11259375 sampleKey) {} = .err m)) := by
  have h1 : genCert (sampleWorld 255 sampleKey) (caTemplate sampleClock) none = .panicked := rfl
  have h2 : genCert (sampleWorld 11259375 sampleKey) (caTemplate sampleClock)
      (some { sampleParent with Private := none }) = .panicked := rfl
  have h3 : GenerateRoot sampleClock (sampleWorld 11259375 sampleKey) {} = .panicked := rfl
  rw [h1, h2, h3]
  simp

/-- C8 (amended). Safety, for every world, template, parent, subject and host
list: a record returned by `genCert` or by any of the four operations is
complete (both PEM blocks present, each byte buffer the PEM encoding of its
block), and `genCert` returns a record only when the serial draw, the key
generation, the choice of the signing pair (with the parent-key parse), the
signing, both PEM encodings and the key marshalling all succeeded. Return:
when the serial draw fails or yields a serial of at least 256, `GenerateRoot`
on a subject with a common name or an organization returns a complete record
or an error; when moreover the parent is absent or carries a `PRIVATE KEY`
block, so does `genCert` on every template, and so do `GenerateIntermediate`,
`GenerateServer` and `GenerateClient` on such a subject. Each operation
returns the result of `genCert` on its template unchanged. -/
theorem C8_complete_record_or_error (ic : InitClock) (ParseIP : String → Option IP)
    (w : World) (child : Certificate) (parent : Option Cert) (fields : Name)
    (hosts : List String) :
    (∀ c, genCert w child parent = .ok c →
      Complete w c ∧
      ∃ s f key sp der pubBytes b privBytes,
        w.randInt = .ok s ∧ randomSerialNumber w.randInt = .ok (s, f) ∧
        w.generateKey = .ok key ∧
        signingPair w (flexSerial child s f) key parent = .ok sp ∧
        w.createCertificate (flexSerial child s f) sp.1 key.PublicKey sp.2 = .ok der ∧
        w.pemEncode { Type_ := "CERTIFICATE", Bytes := der } = .ok pubBytes ∧
        w.marshalPKCS8PrivateKey key = .ok b ∧
        w.pemEncode { Type_ := "PRIVATE KEY", Bytes := b } = .ok privBytes) ∧
    (∀ c, (GenerateRoot ic w fields = .ok c ∨ GenerateIntermediate ic w fields parent = .ok c ∨
        GenerateServer ic ParseIP w fields parent hosts = .ok c ∨
        GenerateClient ic ParseIP w fields parent hosts = .ok c) → Complete w c) ∧
    ((∀ n, w.randInt = .ok n → 256 ≤ n) →
      ((fields.CommonName ≠ "" ∨ fields.Organization ≠ []) →
        ∃ t, rootCA ic fields = .ok t ∧ GenerateRoot ic w fields = genCert w t none ∧
          ((∃ c, GenerateRoot ic w fields = .ok c ∧ Complete w c) ∨
            (∃ m, GenerateRoot ic w fields = .err m))) ∧
      ((∀ p, parent = some p → p.Private ≠ none) →
        ((∃ c, genCert w child parent = .ok c ∧ Complete w c) ∨
          (∃ m, genCert w child parent = .err m)) ∧
        ((fields.CommonName ≠ "" ∨ fields.Organization ≠ []) →
          (∃ t, intermediateCA ic fields = .ok t ∧
            GenerateIntermediate ic w fields parent = genCert w t parent ∧
            ((∃ c, GenerateIntermediate ic w fields parent = .ok c ∧ Complete w c) ∨
              (∃ m, GenerateIntermediate ic w fields parent = .err m))) ∧
          (∃ t, serverCA ic ParseIP fields hosts = .ok t ∧
            GenerateServer ic ParseIP w fields parent hosts = genCert w t parent ∧
            ((∃ c, GenerateServer ic ParseIP w fields parent hosts = .ok c ∧ Complete w c) ∨
              (∃ m, GenerateServer ic ParseIP w fields parent hosts = .err m))) ∧
          (∃ t, clientCA ic ParseIP fields hosts = .ok t ∧
            GenerateClient ic ParseIP w fields parent hosts = genCert w t parent ∧
            ((∃ c, GenerateClient ic ParseIP w fields parent hosts = .ok c ∧ Complete w c) ∨
              (∃ m, GenerateClient ic ParseIP w fields parent hosts = .err m)))))) := by
  refine ⟨?_, ?_, ?_⟩
  · intro c hc
    refine ⟨genCert_ok_complete hc, ?_⟩
    obtain ⟨s, f, key, sp, der, pubBytes, b, privBytes, hs, hk, hsp, hcr, he, hm, hq, -⟩ :=
      genCert_ok_inv hc
    exact ⟨s, f, key, sp, der, pubBytes, b, privBytes, randomSerialNumber_ok_inv hs, hs, hk,
      hsp, hcr, he, hm, hq⟩
  · intro c hc
    rcases hc with h | h | h | h
    all_goals
      obtain ⟨t, -, hg⟩ := Res.bind_ok_inv h
      exact genCert_ok_complete hg
  · intro hserial
    refine ⟨?_, ?_⟩
    · intro hname
      obtain ⟨cn, hcn⟩ := defaultCommonName_total fields hname
      obtain ⟨t, ht⟩ : ∃ t, rootCA ic fields = .ok t := by simp [rootCA, hcn, Res.bind]
      have hg : GenerateRoot ic w fields = genCert w t none := by
        simp [GenerateRoot, ht, Res.bind]
      refine ⟨t, ht, hg, ?_⟩
      rw [hg]
      exact genCert_total w t none hserial (fun p hp => by cases hp)
    · intro hparent
      refine ⟨genCert_total w child parent hserial hparent, ?_⟩
      intro hname
      obtain ⟨cn, hcn⟩ := defaultCommonName_total fields hname
      refine ⟨?_, ?_, ?_⟩
      · obtain ⟨t, ht⟩ : ∃ t, intermediateCA ic fields = .ok t := by
          simp [intermediateCA, hcn, Res.bind]
        have hg : GenerateIntermediate ic w fields parent = genCert w t parent := by
          simp [GenerateIntermediate, ht, Res.bind]
        refine ⟨t, ht, hg, ?_⟩
        rw [hg]
        exact genCert_total w t parent hserial hparent
      · obtain ⟨t, ht⟩ : ∃ t, serverCA ic ParseIP fields hosts = .ok t := by
          simp [serverCA, hcn, Res.bind]
        have hg : GenerateServer ic ParseIP w fields parent hosts = genCert w t parent := by
          simp [GenerateServer, ht, Res.bind]
        refine ⟨t, ht, hg, ?_⟩
        rw [hg]
        exact genCert_total w t parent hserial hparent
      · obtain ⟨t, ht⟩ : ∃ t, clientCA ic ParseIP fields hosts = .ok t := by
          simp [clientCA, hcn, Res.bind]
        have hg : GenerateClient ic ParseIP w fields parent hosts = genCert w t parent := by
          simp [GenerateClient, ht, Res.bind]
        refine ⟨t, ht, hg, ?_⟩
        rw [hg]
        exact genCert_total w t parent hserial hparent

theorem C8_complete_record_or_error_witness :
    (∀ n, (sampleWorld 11259375 sampleKey).randInt = .ok n → 256 ≤ n) ∧
    (∀ p, some sampleParent = some p → p.Private ≠ none) ∧
    (values.CommonName ≠ "" ∨ values.Organization ≠ []) ∧
    ((∃ c, genCert (sampleWorld 11259375 sampleKey) (caTemplate sampleClock)
          (some sampleParent) = .ok c ∧ Complete (sampleWorld 11259375 sampleKey) c) ∨
      (∃ m, genCert (sampleWorld 11259375 sampleKey) (caTemplate sampleClock)
          (some sampleParent) = .err m)) ∧
    (∃ t, serverCA sampleClock parseIPv4 values ["10.0.0.5", "myhost.local"] = .ok t ∧
      GenerateServer sampleClock parseIPv4 (sampleWorld 11259375 sampleKey) values
        (some sampleParent) ["10.0.0.5", "myhost.local"] =
          genCert (sampleWorld 11259375 sampleKey) t (some sampleParent) ∧
      ((∃ c, GenerateServer sampleClock parseIPv4 (sampleWorld 11259375 sampleKey) values
            (some sampleParent) ["10.0.0.5", "myhost.local"] = .ok c ∧
          Complete (sampleWorld 11259375 sampleKey) c) ∨
        (∃ m, GenerateServer sampleClock parseIPv4 (sampleWorld 11259375 sampleKey) values
            (some sampleParent) ["10.0.0.5", "myhost.local"] = .err m))) ∧
    (∃ c, GenerateServer sampleClock parseIPv4 (sampleWorld 11259375 sampleKey) values
        (some sampleParent) ["10.0.0.5", "myhost.local"] = .ok c ∧
      Complete (sampleWorld 11259375 sampleKey) c) := by
  have hs : ∀ n, (sampleWorld 11259375 sampleKey).randInt = .ok n → 256 ≤ n := by
    intro n hn
    simp only [sampleWorld, Except.ok.injEq] at hn
    omega
  have hp : ∀ p, some sampleParent = some p → p.Private ≠ none := by
    intro p hp
    cases hp
    simp [sampleParent]
  have hn : values.CommonName ≠ "" ∨ values.Organization ≠ [] := Or.inr (by decide)
  have key := C8_complete_record_or_error sampleClock parseIPv4 (sampleWorld 11259375 sampleKey)
    (caTemplate sampleClock) (some sampleParent) values ["10.0.0.5", "myhost.local"]
  exact ⟨hs, hp, hn, ((key.2.2 hs).2 hp).1, (((key.2.2 hs).2 hp).2 hn).2.1,
    ⟨_, rfl, key.2.1 _ (Or.inr (Or.inr (Or.inl rfl)))⟩⟩

/-- C1: the descriptor of a record returned by `GenerateServer` or by
`GenerateClient` is a copy of `caTemplate`, not of `serverTemplate` or
`clientTemplate`: it has `IsCA = true`, key usage digitalSignature, certSign
and crlSign, and no extended key usage, whereas the two leaf templates of the
package carry `IsCA = false`, key usage digitalSignature and the extended key
usage `serverAuth`, respectively `clientAuth`. -/
theorem C1_leaf_descriptor_copies_caTemplate (ic : InitClock) (ParseIP : String → Option IP)
    (w : World) (fields : Name) (signCA : Option Cert) (hosts : List String) :
    (∀ c, GenerateServer ic ParseIP w fields signCA hosts = .ok c →
      c.Certificate.IsCA = true ∧
      c.Certificate.KeyUsage =
        (KeyUsageDigitalSignature ||| KeyUsageCertSign ||| KeyUsageCRLSign) ∧
      c.Certificate.ExtKeyUsage = []) ∧
    (∀ c, GenerateClient ic ParseIP w fields signCA hosts = .ok c →
      c.Certificate.IsCA = true ∧
      c.Certificate.KeyUsage =
        (KeyUsageDigitalSignature ||| KeyUsageCertSign ||| KeyUsageCRLSign) ∧
      c.Certificate.ExtKeyUsage = []) ∧
    ((serverTemplate ic).IsCA = false ∧
      (serverTemplate ic).KeyUsage = KeyUsageDigitalSignature ∧
      (serverTemplate ic).ExtKeyUsage = [ExtKeyUsageServerAuth]) ∧
    ((clientTemplate ic).IsCA = false ∧
      (clientTemplate ic).KeyUsage = KeyUsageDigitalSignature ∧
      (clientTemplate ic).ExtKeyUsage = [ExtKeyUsageClientAuth]) := by
  refine ⟨?_, ?_, ⟨rfl, rfl, rfl⟩, ⟨rfl, rfl, rfl⟩⟩
  · intro c hc
    obtain ⟨t, ht, hg⟩ := Res.bind_ok_inv hc
    obtain ⟨cn, -, rfl⟩ := serverCA_ok_inv ht
    obtain ⟨s, f, -, hd⟩ := genCert_ok_descriptor hg
    rw [hd]
    exact ⟨rfl, rfl, rfl⟩
  · intro c hc
    obtain ⟨t, ht, hg⟩ := Res.bind_ok_inv hc
    obtain ⟨cn, -, rfl⟩ := clientCA_ok_inv ht
    obtain ⟨s, f, -, hd⟩ := genCert_ok_descriptor hg
    rw [hd]
    exact ⟨rfl, rfl, rfl⟩

theorem C1_leaf_descriptor_copies_caTemplate_witness :
    ∃ c, GenerateServer sampleClock parseIPv4 (sampleWorld 11259375 sampleKey) values
        (some sampleParent) ["10.0.0.5", "myhost.local"] = .ok c ∧
      c.Certificate.IsCA = true ∧
      c.Certificate.KeyUsage =
        (KeyUsageDigitalSignature ||| KeyUsageCertSign ||| KeyUsageCRLSign) ∧
      c.Certificate.ExtKeyUsage = [] :=
  ⟨_, rfl, (C1_leaf_descriptor_copies_caTemplate sampleClock parseIPv4
    (sampleWorld 11259375 sampleKey) values (some sampleParent)
    ["10.0.0.5", "myhost.local"]).1 _ rfl⟩

/-- C2: for every host list `hosts` and every subject with a common name or
an organization, the template built by `GenerateServer` and by
`GenerateClient`, and the descriptor of every record they return, has as IP
SANs the parsed addresses of the hosts that `net.ParseIP` accepts and as DNS
SANs the hosts that it rejects, both in the order of `hosts`; the two lists
together have as many entries as `hosts`. For `["10.0.0.5", "myhost.local"]`,
when `net.ParseIP` accepts the first as `ip` and rejects the second, the IP
SANs are `[ip]` and the DNS SANs `["myhost.local"]`. -/
theorem C2_hosts_split_into_ip_and_dns (ic : InitClock) (ParseIP : String → Option IP)
    (fields : Name) (hosts : List String)
    (hname : fields.CommonName ≠ "" ∨ fields.Organization ≠ []) :
    (∃ t, serverCA ic ParseIP fields hosts = .ok t ∧
      t.IPAddresses = hosts.filterMap ParseIP ∧
      t.DNSNames = hosts.filter fun h => (ParseIP h).isNone) ∧
    (∃ t, clientCA ic ParseIP fields hosts = .ok t ∧
      t.IPAddresses = hosts.filterMap ParseIP ∧
      t.DNSNames = hosts.filter fun h => (ParseIP h).isNone) ∧
    (∀ w signCA c, GenerateServer ic ParseIP w fields signCA hosts = .ok c →
      c.Certificate.IPAddresses = hosts.filterMap ParseIP ∧
      c.Certificate.DNSNames = hosts.filter fun h => (ParseIP h).isNone) ∧
    (∀ w signCA c, GenerateClient ic ParseIP w fields signCA hosts = .ok c →
      c.Certificate.IPAddresses = hosts.filterMap ParseIP ∧
      c.Certificate.DNSNames = hosts.filter fun h => (ParseIP h).isNone) ∧
    (hosts.filterMap ParseIP).length + (hosts.filter fun h => (ParseIP h).isNone).length =
      hosts.length ∧
    (∀ ip, ParseIP "10.0.0.5" = some ip → ParseIP "myhost.local" = none →
      ∃ t, serverCA ic ParseIP fields ["10.0.0.5", "myhost.local"] = .ok t ∧
        t.IPAddresses = [ip] ∧ t.DNSNames = ["myhost.local"]) := by
  have hcn : ∃ cn, defaultCommonName fields = .ok cn := by
    unfold defaultCommonName
    split
    · rename_i he
      rcases hname with h | h
      · exact absurd he h
      · cases hO : fields.Organization with
        | nil => exact absurd hO h
        | cons o os => exact ⟨o, rfl⟩
    · exact ⟨_, rfl⟩
  obtain ⟨cn, hcn⟩ := hcn
  have hs : ∀ hs : List String, ∃ t, serverCA ic ParseIP fields hs = .ok t := by
    intro hs
    simp [serverCA, hcn, Res.bind]
  have hc : ∃ t, clientCA ic ParseIP fields hosts = .ok t := by
    simp [clientCA, hcn, Res.bind]
  refine ⟨?_, ?_, ?_, ?_, filterMap_filter_length ParseIP hosts, ?_⟩
  · obtain ⟨t, ht⟩ := hs hosts
    obtain ⟨_, -, rfl⟩ := serverCA_ok_inv ht
    exact ⟨_, ht, rfl, rfl⟩
  · obtain ⟨t, ht⟩ := hc
    obtain ⟨_, -, rfl⟩ := clientCA_ok_inv ht
    exact ⟨_, ht, rfl, rfl⟩
  · intro w signCA c h
    obtain ⟨t, ht, hg⟩ := Res.bind_ok_inv h
    obtain ⟨_, -, rfl⟩ := serverCA_ok_inv ht
    obtain ⟨s, f, -, hd⟩ := genCert_ok_descriptor hg
    rw [hd]
    exact ⟨rfl, rfl⟩
  · intro w signCA c h
    obtain ⟨t, ht, hg⟩ := Res.bind_ok_inv h
    obtain ⟨_, -, rfl⟩ := clientCA_ok_inv ht
    obtain ⟨s, f, -, hd⟩ := genCert_ok_descriptor hg
    rw [hd]
    exact ⟨rfl, rfl⟩
  · intro ip h1 h2
    obtain ⟨t, ht⟩ := hs ["10.0.0.5", "myhost.local"]
    obtain ⟨_, -, rfl⟩ := serverCA_ok_inv ht
    refine ⟨_, ht, ?_, ?_⟩
    · simp [List.filterMap_cons, h1, h2]
    · simp [List.filter_cons, h1, h2]

theorem C2_hosts_split_into_ip_and_dns_witness :
    (values.CommonName ≠ "" ∨ values.Organization ≠ []) ∧
    parseIPv4 "10.0.0.5" = some [0, 0, 0, 0, 0, 0, 0, 0, 0, 0, 255, 255, 10, 0, 0, 5] ∧
    parseIPv4 "myhost.local" = none ∧
    ∃ t, serverCA sampleClock parseIPv4 values ["10.0.0.5", "myhost.local"] = .ok t ∧
      t.IPAddresses = [[0, 0, 0, 0, 0, 0, 0, 0, 0, 0, 255, 255, 10, 0, 0, 5]] ∧
      t.DNSNames = ["myhost.local"] :=
  ⟨Or.inr (by decide), by decide, by decide,
    (C2_hosts_split_into_ip_and_dns sampleClock parseIPv4 values ["10.0.0.5", "myhost.local"]
      (Or.inr (by decide))).2.2.2.2.2 _ (by decide) (by decide)⟩

/-- C3: for every subject with a non-empty `Organization`, the templates
built by `GenerateRoot` and `GenerateIntermediate`, and the descriptor of
every record they return, have `IsCA` and `BasicConstraintsValid` set, key
usage digitalSignature, certSign and crlSign, no extended key usage and empty
SAN lists; the intermediate has `MaxPathLen = 1`, the root `MaxPathLen = 0`
with `MaxPathLenZero = false`. -/
theorem C3_ca_descriptor_policy (ic : InitClock) (fields : Name)
    (hOrg : fields.Organization ≠ []) :
    (∃ r, rootCA ic fields = .ok r ∧ CAPolicy r ∧
      r.MaxPathLen = 0 ∧ r.MaxPathLenZero = false) ∧
    (∃ i, intermediateCA ic fields = .ok i ∧ CAPolicy i ∧ i.MaxPathLen = 1) ∧
    (∀ w c, GenerateRoot ic w fields = .ok c →
      CAPolicy c.Certificate ∧
      c.Certificate.MaxPathLen = 0 ∧ c.Certificate.MaxPathLenZero = false) ∧
    (∀ w signCA c, GenerateIntermediate ic w fields signCA = .ok c →
      CAPolicy c.Certificate ∧ c.Certificate.MaxPathLen = 1) := by
  refine ⟨?_, ?_, ?_, ?_⟩
  · obtain ⟨t, ht⟩ := template_exists hOrg (fun cn => .ok { caTemplate ic with
      Subject := { CommonName := cn ++ " Root CA", Organization := fields.Organization } })
      (fun _ => ⟨_, rfl⟩)
    exact ⟨t, ht, by
      obtain ⟨_, -, rfl⟩ := rootCA_ok_inv ht
      exact ⟨⟨rfl, rfl, rfl, rfl, rfl, rfl, rfl, rfl⟩, rfl, rfl⟩⟩
  · obtain ⟨t, ht⟩ := template_exists hOrg (fun cn => .ok { caTemplate ic with
      Subject := { CommonName := cn ++ " Intermediate CA", Organization := fields.Organization }
      MaxPathLen := 1 })
      (fun _ => ⟨_, rfl⟩)
    exact ⟨t, ht, by
      obtain ⟨_, -, rfl⟩ := intermediateCA_ok_inv ht
      exact ⟨⟨rfl, rfl, rfl, rfl, rfl, rfl, rfl, rfl⟩, rfl⟩⟩
  · intro w c h
    obtain ⟨t, ht, hg⟩ := Res.bind_ok_inv h
    obtain ⟨_, -, rfl⟩ := rootCA_ok_inv ht
    obtain ⟨s, f, -, hd⟩ := genCert_ok_descriptor hg
    rw [hd]
    exact ⟨⟨rfl, rfl, rfl, rfl, rfl, rfl, rfl, rfl⟩, rfl, rfl⟩
  · intro w signCA c h
    obtain ⟨t, ht, hg⟩ := Res.bind_ok_inv h
    obtain ⟨_, -, rfl⟩ := intermediateCA_ok_inv ht
    obtain ⟨s, f, -, hd⟩ := genCert_ok_descriptor hg
    rw [hd]
    exact ⟨⟨rfl, rfl, rfl, rfl, rfl, rfl, rfl, rfl⟩, rfl⟩

theorem C3_ca_descriptor_policy_witness :
    values.Organization ≠ [] ∧
    (∃ r, rootCA sampleClock values = .ok r ∧ CAPolicy r ∧
      r.MaxPathLen = 0 ∧ r.MaxPathLenZero = false) ∧
    (∃ i, intermediateCA sampleClock values = .ok i ∧ CAPolicy i ∧ i.MaxPathLen = 1) :=
  ⟨by decide, (C3_ca_descriptor_policy sampleClock values (by decide)).1,
    (C3_ca_descriptor_policy sampleClock values (by decide)).2.1⟩

/-- C6: for every subject whose `Organization` is non-empty, with `base` the
supplied common name if it is non-empty and `Organization[0]` otherwise, each
operation hands to `genCert` a template whose subject consists of the common
name `base ++ " Root CA"` (root), `base ++ " Intermediate CA"` (intermediate)
or `base` (server, client) and of the caller's `Organization`, every other
subject attribute being empty. -/
theorem C6_subject_handed_to_issuer (ic : InitClock) (ParseIP : String → Option IP)
    (fields : Name) (hosts : List String) (hOrg : fields.Organization ≠ []) :
    (∃ t, rootCA ic fields = .ok t ∧
      (∀ w, GenerateRoot ic w fields = genCert w t none) ∧
      t.Subject =
        { CommonName :=
            (if fields.CommonName = "" then fields.Organization.head hOrg
              else fields.CommonName) ++ " Root CA"
          Organization := fields.Organization }) ∧
    (∃ t, intermediateCA ic fields = .ok t ∧
      (∀ w signCA, GenerateIntermediate ic w fields signCA = genCert w t signCA) ∧
      t.Subject =
        { CommonName :=
            (if fields.CommonName = "" then fields.Organization.head hOrg
              else fields.CommonName) ++ " Intermediate CA"
          Organization := fields.Organization }) ∧
    (∃ t, serverCA ic ParseIP fields hosts = .ok t ∧
      (∀ w signCA, GenerateServer ic ParseIP w fields signCA hosts = genCert w t signCA) ∧
      t.Subject =
        { CommonName :=
            (if fields.CommonName = "" then fields.Organization.head hOrg
              else fields.CommonName) ++ ""
          Organization := fields.Organization }) ∧
    (∃ t, clientCA ic ParseIP fields hosts = .ok t ∧
      (∀ w signCA, GenerateClient ic ParseIP w fields signCA hosts = genCert w t signCA) ∧
      t.Subject =
        { CommonName :=
            (if fields.CommonName = "" then fields.Organization.head hOrg
              else fields.CommonName) ++ ""
          Organization := fields.Organization }) := by
  have hcn := defaultCommonName_ok fields hOrg
  refine ⟨?_, ?_, ?_, ?_⟩
  · have ht : rootCA ic fields = .ok { caTemplate ic with
        Subject := { CommonName := (if fields.CommonName = "" then fields.Organization.head hOrg
          else fields.CommonName) ++ " Root CA", Organization := fields.Organization } } := by
      simp [rootCA, hcn, Res.bind]
    exact ⟨_, ht, fun w => by simp [GenerateRoot, ht, Res.bind], rfl⟩
  · have ht : intermediateCA ic fields = .ok { caTemplate ic with
        Subject := { CommonName := (if fields.CommonName = "" then fields.Organization.head hOrg
          else fields.CommonName) ++ " Intermediate CA", Organization := fields.Organization }
        MaxPathLen := 1 } := by
      simp [intermediateCA, hcn, Res.bind]
    exact ⟨_, ht, fun w signCA => by simp [GenerateIntermediate, ht, Res.bind], rfl⟩
  · obtain ⟨t, ht⟩ : ∃ t, serverCA ic ParseIP fields hosts = .ok t := by
      simp [serverCA, hcn, Res.bind]
    refine ⟨t, ht, fun w signCA => by simp [GenerateServer, ht, Res.bind], ?_⟩
    obtain ⟨cn, hcn2, rfl⟩ := serverCA_ok_inv ht
    rw [hcn] at hcn2
    simp only [Res.ok.injEq] at hcn2
    simp [hcn2]
  · obtain ⟨t, ht⟩ : ∃ t, clientCA ic ParseIP fields hosts = .ok t := by
      simp [clientCA, hcn, Res.bind]
    refine ⟨t, ht, fun w signCA => by simp [GenerateClient, ht, Res.bind], ?_⟩
    obtain ⟨cn, hcn2, rfl⟩ := clientCA_ok_inv ht
    rw [hcn] at hcn2
    simp only [Res.ok.injEq] at hcn2
    simp [hcn2]

theorem C6_subject_handed_to_issuer_witness :
    values.Organization ≠ [] ∧
    (∃ t, rootCA sampleClock values = .ok t ∧
      t.Subject = { CommonName := "ACME Company Root CA", Organization := ["ACME Company"] }) ∧
    (∃ t, serverCA sampleClock parseIPv4 { CommonName := "box", Organization := ["ACME"] }
        ["box.local"] = .ok t ∧
      t.Subject = { CommonName := "box", Organization := ["ACME"] }) := by
  refine ⟨by decide, ?_, ?_⟩
  · obtain ⟨t, ht, -, hs⟩ :=
      (C6_subject_handed_to_issuer sampleClock parseIPv4 values [] (by decide)).1
    exact ⟨t, ht, by rw [hs]; decide⟩
  · obtain ⟨t, ht, -, hs⟩ :=
      (C6_subject_handed_to_issuer sampleClock parseIPv4
        { CommonName := "box", Organization := ["ACME"] } ["box.local"] (by decide)).2.2.1
    exact ⟨t, ht, by rw [hs]; decide⟩

/-- C7 (as stated, refuted): with the package initialised at clock readings
1000 and 1001 and `GenerateRoot` called at clock reading 2000, the returned
descriptor has `NotBefore = 1000`, which is not the time of the call, and
`NotAfter - NotBefore` is not `367 * 24` hours. -/
theorem C7_validity_window_not_taken_at_call :
    ∃ c, GenerateRoot sampleClock (sampleWorld 11259375 sampleKey) values = .ok c ∧
      c.Certificate.NotBefore ≠ (sampleWorld 11259375 sampleKey).now ∧
      c.Certificate.NotAfter - c.Certificate.NotBefore ≠ 367 * 24 * Hour :=
  ⟨_, rfl, by decide, by decide⟩

/-- C7 (amended): for every record returned by `GenerateRoot`,
`GenerateIntermediate`, `GenerateServer` or `GenerateClient`, whatever the
clock reads during the call, the validity window is the one written into
`caTemplate` when the package was initialised: `NotBefore` is the first clock
reading of that initialiser and `NotAfter` is its second clock reading plus
`367 * 24` hours, so that `NotAfter - NotBefore` is `367 * 24` hours plus the
time between the two readings. -/
theorem C7_validity_window_fixed_at_initialisation (ic : InitClock)
    (ParseIP : String → Option IP) (w : World) (fields : Name) (signCA : Option Cert)
    (hosts : List String) (c : Cert)
    (h : GenerateRoot ic w fields = .ok c ∨ GenerateIntermediate ic w fields signCA = .ok c ∨
      GenerateServer ic ParseIP w fields signCA hosts = .ok c ∨
      GenerateClient ic ParseIP w fields signCA hosts = .ok c) :
    c.Certificate.NotBefore = ic.caNow1 ∧
    c.Certificate.NotAfter = ic.caNow2 + 367 * 24 * Hour ∧
    c.Certificate.NotAfter - c.Certificate.NotBefore =
      367 * 24 * Hour + (ic.caNow2 - ic.caNow1) := by
  have key : c.Certificate.NotBefore = ic.caNow1 ∧
      c.Certificate.NotAfter = ic.caNow2 + 367 * 24 * Hour := by
    rcases h with h | h | h | h
    · obtain ⟨t, ht, hg⟩ := Res.bind_ok_inv h
      obtain ⟨_, -, rfl⟩ := rootCA_ok_inv ht
      obtain ⟨s, f, -, hd⟩ := genCert_ok_descriptor hg
      rw [hd]
      exact ⟨rfl, rfl⟩
    · obtain ⟨t, ht, hg⟩ := Res.bind_ok_inv h
      obtain ⟨_, -, rfl⟩ := intermediateCA_ok_inv ht
      obtain ⟨s, f, -, hd⟩ := genCert_ok_descriptor hg
      rw [hd]
      exact ⟨rfl, rfl⟩
    · obtain ⟨t, ht, hg⟩ := Res.bind_ok_inv h
      obtain ⟨_, -, rfl⟩ := serverCA_ok_inv ht
      obtain ⟨s, f, -, hd⟩ := genCert_ok_descriptor hg
      rw [hd]
      exact ⟨rfl, rfl⟩
    · obtain ⟨t, ht, hg⟩ := Res.bind_ok_inv h
      obtain ⟨_, -, rfl⟩ := clientCA_ok_inv ht
      obtain ⟨s, f, -, hd⟩ := genCert_ok_descriptor hg
      rw [hd]
      exact ⟨rfl, rfl⟩
  refine ⟨key.1, key.2, ?_⟩
  rw [key.1, key.2]
  ring

theorem C7_validity_window_fixed_at_initialisation_witness :
    ∃ c, GenerateServer sampleClock parseIPv4 (sampleWorld 11259375 sampleKey) values
        (some sampleParent) ["10.0.0.5", "myhost.local"] = .ok c ∧
      c.Certificate.NotBefore = sampleClock.caNow1 ∧
      c.Certificate.NotAfter = sampleClock.caNow2 + 367 * 24 * Hour ∧
      c.Certificate.NotAfter - c.Certificate.NotBefore =
        367 * 24 * Hour + (sampleClock.caNow2 - sampleClock.caNow1) :=
  ⟨_, rfl, C7_validity_window_fixed_at_initialisation sampleClock parseIPv4
    (sampleWorld 11259375 sampleKey) values (some sampleParent) ["10.0.0.5", "myhost.local"] _
    (Or.inr (Or.inr (Or.inl rfl)))⟩

/-- C10: the companion short name is defined exactly for a hostname that
contains a `.`. If it does, the name is the prefix before the first `.`
followed by `".local"`, and once the root and the intermediate exist `main`
calls `GenerateServer` with the subject `values`, the intermediate as signing
record and the host list `[name, hostname]`: its outcome is the outcome of
that call, and the server record of a completed chain is the record that call
returned, with the SANs of `[name, hostname]`. If it does not,
`strings.IndexByte` is `-1`, the slice panics, `main` never calls
`GenerateServer` and does not complete the chain. -/
theorem C10_companion_name_needs_a_dot (hostname : String) :
    ((∃ name, companionName hostname = .ok name) ↔ '.' ∈ hostname.data) ∧
    ('.' ∈ hostname.data →
      ∃ pre post, hostname.data = pre ++ '.' :: post ∧ '.' ∉ pre ∧
        IndexByte hostname.data '.' = (utf8Len pre : Int) ∧
        companionName hostname = .ok (String.mk pre ++ ".local") ∧
        ∀ ic ParseIP w1 w2 w3 r i,
          GenerateRoot ic w1 values = .ok r →
          GenerateIntermediate ic w2 values (some r) = .ok i →
          (main ic ParseIP hostname w1 w2 w3).1 =
            [.generateRoot values, .generateIntermediate values (some r),
              .generateServer values (some i) [String.mk pre ++ ".local", hostname]] ∧
          (main ic ParseIP hostname w1 w2 w3).2 =
            (GenerateServer ic ParseIP w3 values (some i)
              [String.mk pre ++ ".local", hostname]).bind
              (fun server => .ok { rootCA := r, svrCA := i, server := server }) ∧
          ∀ chain, (main ic ParseIP hostname w1 w2 w3).2 = .ok chain →
            chain.rootCA = r ∧ chain.svrCA = i ∧
            GenerateServer ic ParseIP w3 values (some i)
              [String.mk pre ++ ".local", hostname] = .ok chain.server ∧
            chain.server.Certificate.IPAddresses =
              [String.mk pre ++ ".local", hostname].filterMap ParseIP ∧
            chain.server.Certificate.DNSNames =
              [String.mk pre ++ ".local", hostname].filter fun h => (ParseIP h).isNone) ∧
    ('.' ∉ hostname.data →
      IndexByte hostname.data '.' = -1 ∧ companionName hostname = .panicked ∧
      ∀ ic ParseIP w1 w2 w3,
        (∀ fields signCA hs,
          Call.generateServer fields signCA hs ∉ (main ic ParseIP hostname w1 w2 w3).1) ∧
        (∀ chain, (main ic ParseIP hostname w1 w2 w3).2 ≠ .ok chain)) := by
  refine ⟨?_, ?_, ?_⟩
  · constructor
    · rintro ⟨name, hn⟩
      by_contra hc
      rw [companionName_of_not_mem hostname hc] at hn
      cases hn
    · intro h
      obtain ⟨pre, _, _, _, _, hc⟩ := companionName_of_mem hostname h
      exact ⟨_, hc⟩
  · intro h
    obtain ⟨pre, post, hs, hn, hidx, hc⟩ := companionName_of_mem hostname h
    refine ⟨pre, post, hs, hn, hidx, hc, ?_⟩
    intro ic ParseIP w1 w2 w3 r i hr hi
    have hm : main ic ParseIP hostname w1 w2 w3 =
        ([.generateRoot values, .generateIntermediate values (some r),
            .generateServer values (some i) [String.mk pre ++ ".local", hostname]],
          (GenerateServer ic ParseIP w3 values (some i)
            [String.mk pre ++ ".local", hostname]).bind
            (fun server => .ok { rootCA := r, svrCA := i, server := server })) := by
      simp [main, Call.run, hr, hi, hc]
    rw [hm]
    refine ⟨rfl, rfl, ?_⟩
    intro chain hch
    obtain ⟨server, hsrv, hok⟩ := Res.bind_ok_inv hch
    simp only [Res.ok.injEq] at hok
    subst hok
    refine ⟨rfl, rfl, hsrv, ?_⟩
    obtain ⟨t, ht, hg⟩ := Res.bind_ok_inv hsrv
    obtain ⟨_, -, rfl⟩ := serverCA_ok_inv ht
    obtain ⟨s, f, -, hd⟩ := genCert_ok_descriptor hg
    rw [hd]
    exact ⟨rfl, rfl⟩
  · intro h
    have hc := companionName_of_not_mem hostname h
    refine ⟨IndexByte_of_not_mem _ _ h, hc, ?_⟩
    intro ic ParseIP w1 w2 w3
    unfold main
    simp only [Call.run]
    cases hr : GenerateRoot ic w1 values with
    | err m => simp
    | panicked => simp
    | ok r =>
      cases hi : GenerateIntermediate ic w2 values (some r) with
      | err m => simp [hi]
      | panicked => simp [hi]
      | ok i => simp [hi, hc]

theorem C10_companion_name_needs_a_dot_witness :
    ('.' ∈ "myhost.example.com".data ∧
      ∃ pre post, "myhost.example.com".data = pre ++ '.' :: post ∧ '.' ∉ pre ∧
        IndexByte "myhost.example.com".data '.' = (utf8Len pre : Int) ∧
        companionName "myhost.example.com" = .ok (String.mk pre ++ ".local") ∧
        ∀ ic ParseIP w1 w2 w3 r i,
          GenerateRoot ic w1 values = .ok r →
          GenerateIntermediate ic w2 values (some r) = .ok i →
          (main ic ParseIP "myhost.example.com" w1 w2 w3).1 =
            [.generateRoot values, .generateIntermediate values (some r),
              .generateServer values (some i)
                [String.mk pre ++ ".local", "myhost.example.com"]] ∧
          (main ic ParseIP "myhost.example.com" w1 w2 w3).2 =
            (GenerateServer ic ParseIP w3 values (some i)
              [String.mk pre ++ ".local", "myhost.example.com"]).bind
              (fun server => .ok { rootCA := r, svrCA := i, server := server }) ∧
          ∀ chain, (main ic ParseIP "myhost.example.com" w1 w2 w3).2 = .ok chain →
            chain.rootCA = r ∧ chain.svrCA = i ∧
            GenerateServer ic ParseIP w3 values (some i)
              [String.mk pre ++ ".local", "myhost.example.com"] = .ok chain.server ∧
            chain.server.Certificate.IPAddresses =
              [String.mk pre ++ ".local", "myhost.example.com"].filterMap ParseIP ∧
            chain.server.Certificate.DNSNames =
              [String.mk pre ++ ".local", "myhost.example.com"].filter
                fun h => (ParseIP h).isNone) ∧
    ('.' ∉ "myhost".data ∧ IndexByte "myhost".data '.' = -1 ∧
      companionName "myhost" = .panicked ∧
      ∀ ic ParseIP w1 w2 w3,
        (∀ fields signCA hs,
          Call.generateServer fields signCA hs ∉ (main ic ParseIP "myhost" w1 w2 w3).1) ∧
        (∀ chain, (main ic ParseIP "myhost" w1 w2 w3).2 ≠ .ok chain)) ∧
    (companionName "myhost.example.com" = .ok "myhost.local" ∧
      ∃ chain, (main sampleClock parseIPv4 "myhost.example.com" (sampleWorld 11259375 sampleKey)
          (sampleWorld 1193046 sampleKey) (sampleWorld 7829367 sampleKey)).2 = .ok chain ∧
        chain.server.Certificate.DNSNames = ["myhost.local", "myhost.example.com"] ∧
        chain.server.Certificate.IPAddresses = []) :=
  ⟨⟨by decide, (C10_companion_name_needs_a_dot "myhost.example.com").2.1 (by decide)⟩,
    ⟨by decide, (C10_companion_name_needs_a_dot "myhost").2.2 (by decide)⟩,
    ⟨by decide, _, rfl, by decide, by decide⟩⟩

end Certsign
